import Mathlib

/-!
# NeuroLang runtime: shallow embedding and verification

This file embeds the core data structures and operations of the NeuroLang
runtime (garbage-collected object model) in Lean 4 and settles a list of
claims about them against the source.

Embedded from:
* `Source/Runtime/GC/ManagedMemoryTable.cpp` (indirection table)
* `Include/Neuro/Runtime/GC/ManagedMemoryPointer.hpp` (handles)
* `Include/Neuro/Runtime/NeuroValue.hpp` (tagged values)
* `Source/Runtime/GC/NeuroObject.cpp` (generic object, property map)
* `Source/Runtime/Concurrency/ReverseSemaphore.cpp` (reverse semaphore)

Machine integers are modelled as `Nat`/`Int` with explicit wrapping where the
source's arithmetic wraps.  Raw addresses are modelled as `Nat`, with `0`
standing for a null pointer.  Union reads through a member other than the one
last written are unspecified in C++; the model returns a fixed junk value for
such reads, except for `Value::getULong`, which in the source dereferences the
stored integer as an address and is therefore modelled through an explicit
memory function `mem : Int → Nat`.
-/

namespace NeuroSpec

/-- Constant `npos` from `Numeric.hpp`: `(uint32)-1`. -/
def npos : Nat := 4294967295

/-! ## Managed memory pointer (`ManagedMemoryPointer.hpp`) -/

/-- Structure `ManagedMemoryPointerBase`: a table index plus a salted row uid. -/
structure ManagedMemoryPointerBase where
  tableIndex : Nat
  rowuid : Nat
deriving DecidableEq, Repr

/-- Operator `ManagedMemoryPointerBase::operator==` from `ManagedMemoryPointer.hpp`
(lines 63-67): `return tableIndex == other.tableIndex;` — the row uid is not
compared. -/
def ptrBeq (a b : ManagedMemoryPointerBase) : Bool :=
  a.tableIndex == b.tableIndex

/-! ## Indirection table (`ManagedMemoryTable.cpp`)

The `.cpp` implements the section-based layout: pages hold sections, sections
hold rows.  `NEURO_MANAGEDMEMORYTABLEPAGE_SIZE` (sections per page) and
`NEURO_MANAGEDMEMORYTABLESECTION_SIZE` (rows per section) are macros whose
definitions are not part of the sources at hand, so they are parameters
`pagesize` and `sectsize` below. -/

/-- A table row: the raw overhead address (`none` = nullptr) and the row uid. -/
structure ManagedMemoryTableRow where
  ptr : Option Nat
  uid : Nat
deriving DecidableEq, Repr

/-- A table section: fixed row array plus the occupancy counter. -/
structure ManagedMemoryTableSection where
  rows : List ManagedMemoryTableRow
  numOccupied : Nat
deriving DecidableEq, Repr

/-- A table page: fixed array of sections.  The page chain is modelled as a
`List ManagedMemoryTablePage`. -/
structure ManagedMemoryTablePage where
  sections : List ManagedMemoryTableSection
deriving DecidableEq, Repr

/-- Method `ManagedMemoryTable::get_internal`: walk the page chain while
`index > pagesize * sectsize` (note `>` rather than `>=`, as in the source),
then decompose the remaining index into section and row indices, rejecting
only `sectionIndex > pagesize` (again `>` as in the source).  Returns the
locator `(page, section, row)`.  The source computes raw addresses and
performs no further bounds checks; out-of-range locators are resolved to
`none` by the list lookups in the callers below. -/
def get_internalGo (pagesize sectsize : Nat) (pages : List ManagedMemoryTablePage)
    (index pageIdx : Nat) : Option (Nat × Nat × Nat) :=
  match pages with
  | [] => none
  | _ :: rest =>
    if pagesize * sectsize < index then
      get_internalGo pagesize sectsize rest (index - pagesize * sectsize) (pageIdx + 1)
    else
      let sectionIndex := index / sectsize
      let rowIndex := index % sectsize
      if pagesize < sectionIndex then none
      else some (pageIdx, sectionIndex, rowIndex)

/-- Resolve a locator produced by `get_internalGo` to the row it denotes. -/
def lookupRow (pages : List ManagedMemoryTablePage) (loc : Nat × Nat × Nat) :
    Option ManagedMemoryTableRow :=
  (pages.get? loc.1).bind fun page =>
    (page.sections.get? loc.2.1).bind fun s => s.rows.get? loc.2.2

/-- Method `ManagedMemoryTable::get` from `ManagedMemoryTable.cpp` (lines 104-116):
if `get_internal` fails, return nullptr (modelled as `0`); otherwise return
`(uint8*)row->ptr.load() + sizeof(ManagedMemoryOverhead)`.  The source does
NOT compare the row uid with the handle uid, and it adds the header size even
to a null row pointer. -/
def tableGet (pagesize sectsize sizeofOverhead : Nat)
    (pages : List ManagedMemoryTablePage) (ptr : ManagedMemoryPointerBase) : Nat :=
  match get_internalGo pagesize sectsize pages ptr.tableIndex 0 with
  | none => 0
  | some loc =>
    match lookupRow pages loc with
    | none => 0
    | some row => row.ptr.getD 0 + sizeofOverhead

/-- The error surface used by the table operations. -/
inductive TableError where
  | NoError
  | DataSetNotFoundError
deriving DecidableEq, Repr

/-- Replace the row at `loc` with `r` and decrement the surrounding section's
`numOccupied` (the two updates `removePointer` performs). -/
def removeRowAt (pages : List ManagedMemoryTablePage) (loc : Nat × Nat × Nat)
    (r : ManagedMemoryTableRow) : List ManagedMemoryTablePage :=
  match pages.get? loc.1 with
  | none => pages
  | some page =>
    match page.sections.get? loc.2.1 with
    | none => pages
    | some s =>
      let s' : ManagedMemoryTableSection :=
        { rows := s.rows.set loc.2.2 r, numOccupied := s.numOccupied - 1 }
      pages.set loc.1 { sections := page.sections.set loc.2.1 s' }

/-- Method `ManagedMemoryTable::removePointer` (lines 81-102): locate the row; if the
lookup fails or the row uid differs from the handle uid, return
`DataSetNotFoundError`; otherwise null the row pointer, zero its uid and
decrement the section's occupancy counter. -/
def removePointer (pagesize sectsize : Nat) (pages : List ManagedMemoryTablePage)
    (ptr : ManagedMemoryPointerBase) : TableError × List ManagedMemoryTablePage :=
  match get_internalGo pagesize sectsize pages ptr.tableIndex 0 with
  | none => (.DataSetNotFoundError, pages)
  | some loc =>
    match lookupRow pages loc with
    | none => (.DataSetNotFoundError, pages)
    | some row =>
      if row.uid ≠ ptr.rowuid then (.DataSetNotFoundError, pages)
      else (.NoError, removeRowAt pages loc ⟨none, 0⟩)

/-- A one-page, one-section table holding a single live row:
address 1000, uid 5. -/
def c1Table : List ManagedMemoryTablePage :=
  [⟨[⟨[⟨some 1000, 5⟩], 1⟩]⟩]

/-- C1: the claim states `get(h)` returns the payload address when the stored
uid equals `h.rowUid` and null when they differ, and in particular that after
`removePointer(h)` a later `get(h)` returns null.  The source's `get` performs
no uid comparison at all: with the row uid 5 and a handle uid 7 it still
returns `1000 + sizeof(header)`, and after a successful `removePointer` it
returns `0 + sizeof(header)`, which is not null.  (Header size 48 is a
representative concrete value; any positive size exhibits the same
behaviour.)  This contradicts the repository's own test
`TestManagedMemoryTable.cpp` ("Remove" asserts `ptr.get() == nullptr`). -/
theorem c1_get_ignores_uid_eval :
    tableGet 10 100 48 c1Table ⟨0, 7⟩ = 1048 ∧
    (removePointer 10 100 c1Table ⟨0, 5⟩).1 = TableError.NoError ∧
    tableGet 10 100 48 (removePointer 10 100 c1Table ⟨0, 5⟩).2 ⟨0, 5⟩ = 48 ∧
    (48 : Nat) ≠ 0 := by
  decide

/-- C2 (counterexample): two handles with the same table index and different
row uids compare equal under `operator==`, refuting "a == b returns true if
and only if both tableIndex and rowUid agree". -/
theorem c2_counterexample :
    ptrBeq ⟨0, 1⟩ ⟨0, 2⟩ = true ∧
    (⟨0, 1⟩ : ManagedMemoryPointerBase).rowuid ≠
      (⟨0, 2⟩ : ManagedMemoryPointerBase).rowuid := by
  decide

/-- C2 (amended): handle equality compares the table index only; the row uid
does not participate. -/
theorem c2_eq_iff_tableIndex (a b : ManagedMemoryPointerBase) :
    ptrBeq a b = true ↔ a.tableIndex = b.tableIndex := by
  simp [ptrBeq]

/-! ## Tagged value (`NeuroValue.hpp`)

`Value` stores a `neuroValueType` tag, a signedness flag and a payload union
`{ int64 m_longValue; double m_doubleValue; Pointer m_objectValue;
void* m_ptrValue; }`.  Doubles are modelled by their bit pattern as an `Int`.
Reading a union member other than the last one written is unspecified; the
model returns a fixed junk value (`0` resp. the default pointer) for such
reads. -/

/-- Enum `neuroValueType` from `NeuroTypes.h` (values 0-9 in this order). -/
inductive NVT where
  | undefined
  | bool
  | byte
  | short
  | integer
  | long
  | float
  | double
  | nativeObject
  | object
deriving DecidableEq, Repr

/-- Predicate `Value::isInteger`: `m_type >= NVT_Bool && m_type <= NVT_Long`. -/
def NVT.isIntegerT : NVT → Bool
  | .bool | .byte | .short | .integer | .long => true
  | _ => false

/-- Predicate `Value::isDecimal`: `m_type == NVT_Float || m_type == NVT_Double`. -/
def NVT.isDecimalT : NVT → Bool
  | .float | .double => true
  | _ => false

/-- Predicate `Value::isNumeric`: `m_type != NVT_Object && m_type != NVT_Undefined`
(note this includes `NVT_NativeObject`, exactly as in the source). -/
def NVT.isNumericT : NVT → Bool
  | .object | .undefined => false
  | _ => true

/-- The payload union, tracking which member was last written. -/
inductive USlot where
  | longV (v : Int)
  | doubleV (v : Int)
  | objV (p : ManagedMemoryPointerBase)
  | ptrV (a : Nat)
deriving DecidableEq, Repr

/-- Union read through `m_longValue`; junk `0` when another member is live. -/
def USlot.asLong : USlot → Int
  | .longV v => v
  | _ => 0

/-- Union read through `m_doubleValue`; junk `0` when another member is live. -/
def USlot.asDouble : USlot → Int
  | .doubleV v => v
  | _ => 0

/-- Union read through `m_objectValue`; junk default pointer otherwise. -/
def USlot.asObj : USlot → ManagedMemoryPointerBase
  | .objV p => p
  | _ => ⟨npos, 0⟩

/-- Union read through `m_ptrValue`; junk `0` when another member is live. -/
def USlot.asPtr : USlot → Nat
  | .ptrV a => a
  | _ => 0

/-- The `Value` class: tag, signedness flag, payload union. -/
structure Value where
  m_type : NVT
  m_unsigned : Bool
  slot : USlot
deriving DecidableEq, Repr

/-- Getter `Value::getLong`: `return m_longValue;`. -/
def Value.getLong (v : Value) : Int := v.slot.asLong

/-- Getter `Value::getULong`: `return *reinterpret_cast<uint64*>(m_longValue);` —
the source dereferences the stored integer VALUE as an address (a missing
`&`), so the result is whatever memory holds there; `mem` models that
memory. -/
def Value.getULong (mem : Int → Nat) (v : Value) : Nat := mem v.slot.asLong

/-- Getter `Value::getDouble` (bit-pattern model). -/
def Value.getDouble (v : Value) : Int := v.slot.asDouble

/-- Getter `Value::getManagedObject`. -/
def Value.getManagedObject (v : Value) : ManagedMemoryPointerBase := v.slot.asObj

/-- Getter `Value::getNativeObject`. -/
def Value.getNativeObject (v : Value) : Nat := v.slot.asPtr

/-- Getter `Value::getBool`: `return !!m_longValue;`. -/
def Value.getBool (v : Value) : Bool := v.getLong != 0

/-- Cast `(int8)m_longValue` two's-complement truncation. -/
def toI8 (x : Int) : Int := Int.bmod x 256

/-- Cast `(uint8)m_longValue` truncation. -/
def toU8 (x : Int) : Nat := (x % 256).toNat

/-- Cast `(int16)m_longValue` two's-complement truncation. -/
def toI16 (x : Int) : Int := Int.bmod x 65536

/-- Cast `(uint16)m_longValue` truncation. -/
def toU16 (x : Int) : Nat := (x % 65536).toNat

/-- Cast `(int32)m_longValue` two's-complement truncation. -/
def toI32 (x : Int) : Int := Int.bmod x 4294967296

/-- Cast `(uint32)m_longValue` truncation. -/
def toU32 (x : Int) : Nat := (x % 4294967296).toNat

/-- Coercion `Value::operator bool`: numeric values coerce by comparing the (integer
or double view of the) payload against zero; managed objects by the pointer's
truthiness `tableIndex != npos && get() != nullptr`, where `resolve` stands
for the global-table lookup `ManagedMemoryPointerBase::get` (null = `0`).
The trailing `isNativeObject` branch is unreachable because `isNumeric`
already covers `NVT_NativeObject`; it reads the double view of the union,
exactly as the source does. -/
def Value.truthy (resolve : ManagedMemoryPointerBase → Nat) (v : Value) : Bool :=
  if v.m_type.isNumericT then
    if v.m_type.isIntegerT then v.getLong != 0
    else v.getDouble != 0
  else if v.m_type == NVT.object then
    (v.getManagedObject.tableIndex != npos) && (resolve v.getManagedObject != 0)
  else if v.m_type == NVT.nativeObject then
    v.getNativeObject != 0
  else false

/-- The typed right-hand operands of `Value::operator==`
(`NeuroValue.hpp` lines 246-281), one constructor per C++ overload. -/
inductive CmpOperand where
  | bOp (v : Bool)
  | u8Op (v : Nat)
  | i8Op (v : Int)
  | u16Op (v : Nat)
  | i16Op (v : Int)
  | u32Op (v : Nat)
  | i32Op (v : Int)
  | u64Op (v : Nat)
  | i64Op (v : Int)
  | dblOp (v : Int)
  | objOp (p : ManagedMemoryPointerBase)
  | ptrOp (a : Nat)
deriving DecidableEq, Repr

/-- Operator `Value::operator==` against each typed operand, transcribed overload by
overload: bool compares against the truthiness coercion; unsigned integers
require `isInteger() && isUnsigned() && getULong() == value`; signed integers
require `isInteger() && !isUnsigned() && getLong() == value`; double requires
`isDecimal() && getDouble() == value`; the managed-pointer overload requires
`isManagedObject()` and pointer equality (which compares table indices only);
the native-pointer overload requires `isNativeObject()` and address
equality. -/
def valueEq (resolve : ManagedMemoryPointerBase → Nat) (mem : Int → Nat)
    (x : Value) : CmpOperand → Bool
  | .bOp v => x.truthy resolve == v
  | .u8Op v => x.m_type.isIntegerT && x.m_unsigned && (x.getULong mem == v)
  | .i8Op v => x.m_type.isIntegerT && !x.m_unsigned && (x.getLong == v)
  | .u16Op v => x.m_type.isIntegerT && x.m_unsigned && (x.getULong mem == v)
  | .i16Op v => x.m_type.isIntegerT && !x.m_unsigned && (x.getLong == v)
  | .u32Op v => x.m_type.isIntegerT && x.m_unsigned && (x.getULong mem == v)
  | .i32Op v => x.m_type.isIntegerT && !x.m_unsigned && (x.getLong == v)
  | .u64Op v => x.m_type.isIntegerT && x.m_unsigned && (x.getULong mem == v)
  | .i64Op v => x.m_type.isIntegerT && !x.m_unsigned && (x.getLong == v)
  | .dblOp v => x.m_type.isDecimalT && (x.getDouble == v)
  | .objOp p => (x.m_type == NVT.object) && ptrBeq x.getManagedObject p
  | .ptrOp a => (x.m_type == NVT.nativeObject) && (x.getNativeObject == a)

/-- C8 (counterexample): a Byte-tagged signed value compares equal to an
`int32` operand with the same payload, although its stored tag is not the
operand's type `NVT_Integer` — equality only requires SOME integer tag with
matching signedness, refuting "x == c returns true only if x's stored tag
matches the operand's type". -/
theorem c8_counterexample :
    valueEq (fun _ => 0) (fun _ => 0)
      ⟨NVT.byte, false, USlot.longV 5⟩ (CmpOperand.i32Op 5) = true ∧
    NVT.byte ≠ NVT.integer := by
  decide

/-- C8 (amended): characterization of `operator==` as the source implements
it.  A bool operand compares against the truthiness coercion; an unsigned
integer operand requires an integer tag (Bool through Long), the unsigned
flag, and that the memory read performed by `getULong` yields the operand; a
signed integer operand requires an integer tag, the signed flag and an equal
payload; a double operand requires a decimal tag (Float or Double) and an
equal payload; a managed-handle operand requires exactly the Object tag and
an equal table index (the uid is ignored by pointer equality); a native
pointer operand requires exactly the NativeObject tag and an equal address. -/
theorem c8_eq_characterization (resolve : ManagedMemoryPointerBase → Nat)
    (mem : Int → Nat) (x : Value) (c : CmpOperand) :
    valueEq resolve mem x c = true ↔
      (match c with
      | .bOp v => x.truthy resolve = v
      | .u8Op v => x.m_type.isIntegerT = true ∧ x.m_unsigned = true ∧ x.getULong mem = v
      | .i8Op v => x.m_type.isIntegerT = true ∧ x.m_unsigned = false ∧ x.getLong = v
      | .u16Op v => x.m_type.isIntegerT = true ∧ x.m_unsigned = true ∧ x.getULong mem = v
      | .i16Op v => x.m_type.isIntegerT = true ∧ x.m_unsigned = false ∧ x.getLong = v
      | .u32Op v => x.m_type.isIntegerT = true ∧ x.m_unsigned = true ∧ x.getULong mem = v
      | .i32Op v => x.m_type.isIntegerT = true ∧ x.m_unsigned = false ∧ x.getLong = v
      | .u64Op v => x.m_type.isIntegerT = true ∧ x.m_unsigned = true ∧ x.getULong mem = v
      | .i64Op v => x.m_type.isIntegerT = true ∧ x.m_unsigned = false ∧ x.getLong = v
      | .dblOp v => x.m_type.isDecimalT = true ∧ x.getDouble = v
      | .objOp p => x.m_type = NVT.object ∧ x.getManagedObject.tableIndex = p.tableIndex
      | .ptrOp a => x.m_type = NVT.nativeObject ∧ x.getNativeObject = a) := by
  cases c <;>
    simp [valueEq, ptrBeq, Bool.and_eq_true, and_assoc, Bool.not_eq_true',
      beq_iff_eq, bne_iff_ne]

/-- Operator `Value::operator=(const Value&)` (`NeuroValue.hpp` lines 166-205).  The
tag and signedness flag are copied first; the switch then copies the payload
member by member.  The `default` case (Undefined) leaves the destination's
union untouched (`wSlot`).  NOTE: the `NVT_NativeObject` case body assigns
`m_objectValue = other.getManagedObject()` and the `NVT_Object` case body
assigns `m_ptrValue = other.getNativeObject()` — the two bodies are
interchanged relative to their case labels, exactly as in the source. -/
def Value.assignFrom (mem : Int → Nat) (wSlot : USlot) (other : Value) : Value :=
  let u := other.m_unsigned
  match other.m_type with
  | .undefined => ⟨.undefined, u, wSlot⟩
  | .bool => ⟨.bool, u, .longV (if other.getBool then 1 else 0)⟩
  | .byte => ⟨.byte, u, .longV (if u then (toU8 other.getLong : Int) else toI8 other.getLong)⟩
  | .short => ⟨.short, u, .longV (if u then (toU16 other.getLong : Int) else toI16 other.getLong)⟩
  | .integer => ⟨.integer, u, .longV (if u then (toU32 other.getLong : Int) else toI32 other.getLong)⟩
  | .long => ⟨.long, u, .longV (if u then (other.getULong mem : Int) else other.getLong)⟩
  | .float => ⟨.float, u, .doubleV other.getDouble⟩
  | .double => ⟨.double, u, .doubleV other.getDouble⟩
  | .nativeObject => ⟨.nativeObject, u, .objV other.getManagedObject⟩
  | .object => ⟨.object, u, .ptrV other.getNativeObject⟩

/-- C9: copying a Value that holds a managed handle.  The tag is preserved,
but the payload is copied through `m_ptrValue = other.getNativeObject()` (the
case bodies for `NVT_Object` and `NVT_NativeObject` are interchanged), so the
union ends up holding a reinterpreted native pointer instead of the handle:
the handle `(3, 7)` is lost, refuting "w's payload equals v's payload" and
"w.getManagedObject() equals v.getManagedObject()". -/
theorem c9_object_assign_loses_handle :
    (Value.assignFrom (fun _ => 0) (USlot.longV 0)
        ⟨NVT.object, false, USlot.objV ⟨3, 7⟩⟩).m_type = NVT.object ∧
    (Value.assignFrom (fun _ => 0) (USlot.longV 0)
        ⟨NVT.object, false, USlot.objV ⟨3, 7⟩⟩).slot ≠ USlot.objV ⟨3, 7⟩ ∧
    (Value.assignFrom (fun _ => 0) (USlot.longV 0)
        ⟨NVT.object, false, USlot.objV ⟨3, 7⟩⟩).slot = USlot.ptrV 0 ∧
    (Value.assignFrom (fun _ => 0) (USlot.longV 0)
        ⟨NVT.nativeObject, false, USlot.ptrV 4096⟩).slot ≠ USlot.ptrV 4096 := by
  decide

/-! ## Generic object and property map (`NeuroObject.cpp`)

A `Property` is a pair of an atomic identifier number (`first`) and a `Value`
(`second`).  The object's property array is modelled as a `List Property`;
its length is the object's `propCount` (capacity).  An index at or past the
capacity is an out-of-bounds access in the source (undefined behaviour);
the model reports it explicitly. -/

/-- One property slot: `(idAtomic, value)`. -/
structure Property where
  first : Nat
  second : Value
deriving DecidableEq, Repr

/-- The object's property map (`props` array of `propCount` slots).  The
remaining `Object` header fields do not participate in the property
algorithms. -/
structure Obj where
  props : List Property
deriving DecidableEq, Repr

/-- Field `propCount` (the capacity of the property array). -/
def Obj.propCount (o : Obj) : Nat := o.props.length

/-- Function `cycleBits(number, bits)` from `NeuroObject.cpp` (lines 42-52): rotate a
`uint32` left by `bits % 32`, returning the number unchanged when `bits` is
zero.  (When `bits` is a nonzero multiple of 32 the source computes
`number << 0 | number >> 32`; the model's logical shift yields `number`,
which agrees with the common hardware behaviour of that expression.) -/
def cycleBits (number bits : Nat) : Nat :=
  if bits = 0 then number
  else
    let b := bits % 32
    (((number <<< b) % 4294967296) ||| (number >>> (32 - b))) % 4294967296

/-- The slot index probed in round `i` of the hash lookup:
`props[cycleBits(number, propCount * i)]` — the source applies NO modulo by
the capacity. -/
def probeIndexCode (number cap i : Nat) : Nat := cycleBits number (cap * i)

/-- The eight probe indices of the hash phase, in order. -/
def probeList (o : Obj) (number : Nat) : List Nat :=
  (List.range 8).map fun i => probeIndexCode number o.propCount i

/-- Result of the probe phase. -/
inductive Probe where
  | found (idx : Nat)
  | oob (idx : Nat)
  | miss
deriving DecidableEq, Repr

/-- The probe loop `for (i = 0; i < 8; ++i)` of both `getProperty` overloads:
read `props[idx]` for each probe index; stop at the first slot whose `first`
equals the identifier number; report an out-of-bounds read as soon as an
index reaches the capacity. -/
def probeGo (o : Obj) (number : Nat) : List Nat → Probe
  | [] => .miss
  | idx :: rest =>
    match o.props.get? idx with
    | none => .oob idx
    | some p => if p.first = number then .found idx else probeGo o number rest

/-- Result of the const linear scan. -/
inductive ScanRes where
  | found (idx : Nat)
  | oob (idx : Nat)
  | finished
deriving DecidableEq, Repr

/-- The const lookup's linear fallback
`for (start = number % propCount, index = start + 1; index != start;
index = (index + 1) % propCount)`: note the scan starts at `start + 1`
WITHOUT a modulo (so `props[propCount]` is read when
`number % propCount = propCount - 1`) and never inspects slot `start`
itself.  `fuel` bounds the loop; `propCount + 2` steps always suffice. -/
def constScan (o : Obj) (number start : Nat) : Nat → Nat → ScanRes
  | _, 0 => .finished
  | idx, fuel + 1 =>
    if idx = start then .finished
    else
      match o.props.get? idx with
      | none => .oob idx
      | some p =>
        if p.first = number then .found idx
        else constScan o number start ((idx + 1) % o.propCount) fuel

/-- Result of `getProperty(Identifier) const`. -/
inductive ConstGet where
  | val (idx : Nat)
  | undefinedVal
  | oob (idx : Nat)
deriving DecidableEq, Repr

/-- Method `Object::getProperty(Identifier) const` (`NeuroObject.cpp` lines
118-132): probe the eight hash positions, fall back to the linear scan, and
return `Value::undefined` when neither finds the identifier. -/
def getConstProperty (o : Obj) (number : Nat) : ConstGet :=
  match probeGo o number (probeList o number) with
  | .found i => .val i
  | .oob i => .oob i
  | .miss =>
    let start := number % o.propCount
    match constScan o number start (start + 1) (o.propCount + 2) with
    | .found i => .val i
    | .oob i => .oob i
    | .finished => .undefinedVal

/-- Replace `props[i].first` with `v` (no-op when `i` is out of range). -/
def Obj.setFirst (o : Obj) (i v : Nat) : Obj :=
  match o.props.get? i with
  | none => o
  | some p => ⟨o.props.set i { p with first := v }⟩

/-- Replace `props[i].second` with `v` (no-op when `i` is out of range). -/
def Obj.setSecond (o : Obj) (i : Nat) (v : Value) : Obj :=
  match o.props.get? i with
  | none => o
  | some p => ⟨o.props.set i { p with second := v }⟩

/-- Result of the mutable `getProperty`: a reference to slot `idx` of the
(possibly updated) object, an out-of-bounds access, or the fall-through to
`recreateObject` (property map full). -/
inductive MutGet where
  | ref (o : Obj) (idx : Nat)
  | oob (o : Obj) (idx : Nat)
  | grow (o : Obj)
deriving DecidableEq, Repr

/-- The mutable lookup's claiming linear scan (`NeuroObject.cpp` lines
95-111).  `available` remembers the preemptively claimed free slot, `cmp` is
the comparand variable passed by reference to `compare_exchange_strong`: on a
failed CAS the source updates `cmp` to the value read, so a claim succeeds at
a slot whose `first` equals the CURRENT `cmp`, not necessarily `0` — the
model reproduces that faithfully.  When a slot holding the identifier is
found, a previously claimed slot is released (`available->first = 0`). -/
def mutScan (o : Obj) (number start : Nat) (available : Option Nat) (cmp : Nat) :
    Nat → Nat → MutGet
  | _, 0 => .grow o
  | idx, fuel + 1 =>
    if idx = start then
      match available with
      | some j => .ref o j
      | none => .grow o
    else
      match o.props.get? idx with
      | none => .oob o idx
      | some p =>
        if p.first = number then
          match available with
          | some j => .ref (o.setFirst j 0) idx
          | none => .ref o idx
        else
          match available with
          | some _ => mutScan o number start available cmp ((idx + 1) % o.propCount) fuel
          | none =>
            if p.first = cmp then
              let o' := o.setFirst idx number
              mutScan o' number start (some idx) cmp ((idx + 1) % o'.propCount) fuel
            else
              mutScan o number start none p.first ((idx + 1) % o.propCount) fuel

/-- Method `Object::getProperty(Identifier)` (mutable, `NeuroObject.cpp` lines
85-116): probe the eight hash positions; on a miss run the claiming linear
scan; when no slot could be claimed the source recreates the object with
`propCount + 1` (reported as `grow`). -/
def getMutProperty (o : Obj) (number : Nat) : MutGet :=
  match probeGo o number (probeList o number) with
  | .found i => .ref o i
  | .oob i => .oob o i
  | .miss =>
    let start := number % o.propCount
    mutScan o number start none 0 (start + 1) (o.propCount + 2)

/-- Result of `obj->getProperty(id) = v`. -/
inductive SetRes where
  | ok (o : Obj)
  | oob (idx : Nat)
  | grow (o : Obj)
deriving DecidableEq, Repr

/-- Assignment `obj->getProperty(id) = v`: assign `v` through the reference returned by
the mutable lookup. -/
def setProperty (o : Obj) (number : Nat) (v : Value) : SetRes :=
  match getMutProperty o number with
  | .ref o' i => .ok (o'.setSecond i v)
  | .oob _ i => .oob i
  | .grow o' => .grow o'

/-- The all-zero-bits `Value` produced by `memset(props, 0, ...)`:
tag `NVT_Undefined` (= 0), cleared signedness flag, zero payload. -/
def Value.zeroed : Value := ⟨.undefined, false, .longV 0⟩

/-- Operator `Value::operator=(int32)`: tag Integer, signed, payload. -/
def Value.mkInt32 (v : Int) : Value := ⟨.integer, false, .longV v⟩

/-- The `Object(Pointer self, uint32 propCount)` constructor
(`NeuroObject.cpp` lines 60-63): `memset(props, 0, sizeof(Property) *
propCount)` — every slot becomes `(0, zero bits)`.  The free-slot marker is
the identifier number `0`, not `~0`. -/
def Obj.fresh (propCount : Nat) : Obj :=
  ⟨List.replicate propCount ⟨0, Value.zeroed⟩⟩

/-- Method `Object::genericCreateObject` (lines 215-225): capacity is
`knownPropsCount + 10` (the slack is a fixed 10 in this source), then the
constructor zero-fills the slots. -/
def createObject (knownPropsCount : Nat) : Obj :=
  Obj.fresh (knownPropsCount + 10)

/-- Method `Object::length` (lines 134-140): count the slots whose `first` is
nonzero (`if (props[i].first) ++count`). -/
def Obj.length (o : Obj) : Nat :=
  (o.props.filter fun p => p.first ≠ 0).length

/-- Insert an `int32` property, keeping the object unchanged when the lookup
reports out-of-bounds or growth (used to build concrete scenarios). -/
def insertInt (o : Obj) (id : Nat) (v : Int) : Obj :=
  match setProperty o id (Value.mkInt32 v) with
  | .ok o' => o'
  | _ => o

/-- C5: the probe phase inspects `props[cycleBits(id, capacity * i)]` with NO
modulo: for id 1 and capacity 10, probe round 1 inspects index 1024, which is
not below the capacity (the claimed formula would give 1024 % 10 = 4); and
the linear fallback's first index `(id % capacity) + 1` can equal the
capacity: for id 31 and capacity 32 the const lookup reads `props[32]`.  Both
refute "every slot index the lookup ever reads or writes is strictly less
than the object's capacity". -/
theorem c5_probe_out_of_range :
    probeIndexCode 1 10 1 = 1024 ∧
    ¬ probeIndexCode 1 10 1 < 10 ∧
    cycleBits 1 10 % 10 = 4 ∧
    (probeList (createObject 0) 1).contains 1024 = true ∧
    getConstProperty (Obj.fresh 32) 31 = ConstGet.oob 32 := by
  decide

/-- C4: on a fresh object of capacity 10 (`createObject(0)`) and identifier
number 1, the mutable lookup used by property assignment reads `props[1024]`
in probe round 1 — an out-of-bounds access (undefined behaviour in the
source), so the set-then-get round trip is not delivered for such inputs.
On inputs whose probe indices stay in bounds (capacity 32, where every
rotation is by a multiple of 32) the round trip does hold, as the second and
third conjuncts evaluate: setting id 5 to 99 stores into slot 6 and the const
lookup reads 99 back. -/
theorem c4_roundtrip_oob_eval :
    getMutProperty (createObject 0) 1 = MutGet.oob (createObject 0) 1024 ∧
    getConstProperty (insertInt (Obj.fresh 32) 5 99) 5 = ConstGet.val 6 ∧
    (insertInt (Obj.fresh 32) 5 99).props.get? 6 =
      some ⟨5, Value.mkInt32 99⟩ := by
  decide

/-- C6: `createObject` zero-fills the slots, so a fresh slot holds identifier
number `0` — not `~0` (= 4294967295) — and the free marker throughout is `0`.
Because interned identifier numbers start at 0 (`nextNumber = 0` in
`NeuroIdentifier.cpp`), a property with the first interned identifier is
found in a free slot and never claimed: after inserting identifiers 0, 1 and
2 into a capacity-32 object, `length()` returns 2, not 3 (the repository's
own "Manual Recreate" test in `TestNeuroObject.cpp` expects 3 for exactly
this shape of sequence). -/
theorem c6_zero_sentinel_eval :
    (createObject 0).props.get? 0 = some ⟨0, Value.zeroed⟩ ∧
    (0 : Nat) ≠ npos ∧
    Obj.length (insertInt (insertInt (insertInt (Obj.fresh 32) 0 42) 1 7) 2 9) = 2 := by
  decide

/-! ## Object recreation through the collector (`NeuroObject.cpp`)

`genericRecreateObject` allocates through an allocation delegate
(`GC::allocateTrivial`) and constructs the new object with the rehashing
constructor.  The collector is modelled as a state holding a heap of handle →
object bindings and fresh-index/uid counters; `alloc` models `addPointer`
issuing a fresh row with a fresh salted uid.  The source does not initialize
the new property array before `copyRehashProps` runs; the model assumes
zero-filled fresh memory.  `movedEvents` records `onMove` firings; the
recreation path in the source never invokes `onMove`, and accordingly no
function below appends to it. -/

/-- The modelled collector state. -/
structure GCState where
  nextIndex : Nat
  nextUid : Nat
  heap : List (ManagedMemoryPointerBase × Obj)
  movedEvents : List ManagedMemoryPointerBase
deriving DecidableEq, Repr

/-- Method `GC::resolve` / handle dereference: look the handle up in the heap. -/
def GCState.resolve (st : GCState) (p : ManagedMemoryPointerBase) : Option Obj :=
  (st.heap.find? fun e => e.1 == p).map (·.2)

/-- Allocation through the collector: a fresh table row (fresh index, fresh
uid) bound to the new object. -/
def GCState.alloc (st : GCState) (o : Obj) : GCState × ManagedMemoryPointerBase :=
  let p : ManagedMemoryPointerBase := ⟨st.nextIndex, st.nextUid⟩
  ({ st with
      nextIndex := st.nextIndex + 1
      nextUid := st.nextUid + 1
      heap := st.heap ++ [(p, o)] }, p)

/-- The property sequence produced by iterating `*other` with the object's
`PropertyIterator`: `begin()` starts at index 0 WITHOUT skipping (so slot 0
is always yielded, free or not), and `operator++` then skips slots whose
`first` is zero. -/
def iterProps (o : Obj) : List Property :=
  match o.props with
  | [] => []
  | p0 :: rest => p0 :: rest.filter fun p => p.first ≠ 0

/-- Method `Object::copyRehashProps` (`NeuroObject.cpp` lines 146-153) as run by the
`Object(self, other, newPropCount)` constructor: iterate the other object's
properties (at most `max(other->length(), propCount)` of them) and re-insert
each via the mutable `getProperty` followed by `Value::operator=`.  When the
lookup reports an out-of-bounds read or a full map the model leaves the
object unchanged (the source's behaviour there is undefined resp. recursive
recreation). -/
def copyRehash (mem : Int → Nat) (other : Obj) (newCount : Nat) : Obj :=
  let cnt := max other.length newCount
  ((iterProps other).take cnt).foldl
    (fun acc pr =>
      match getMutProperty acc pr.first with
      | .ref o' i =>
        match o'.props.get? i with
        | some cur => o'.setSecond i (Value.assignFrom mem cur.second.slot pr.second)
        | none => o'
      | .oob o' _ => o'
      | .grow o' => o')
    (Obj.fresh newCount)

/-- Method `Object::genericRecreateObject` (`NeuroObject.cpp` lines 235-248): the
new capacity is `knownPropsCount + 10`; when it equals the current capacity
the original handle is returned unchanged; otherwise a NEW object is
allocated through the collector, the properties are copy-rehashed into it,
and ITS handle is returned.  The original handle's backing is not touched and
`onMove` is not fired. -/
def genericRecreateObject (mem : Int → Nat) (st : GCState)
    (object : ManagedMemoryPointerBase) (knownPropsCount : Nat) :
    GCState × ManagedMemoryPointerBase :=
  let totalPropsCount := knownPropsCount + 10
  match st.resolve object with
  | none => (st, object)
  | some old =>
    if totalPropsCount = old.propCount then (st, object)
    else st.alloc (copyRehash mem old totalPropsCount)

/-- A collector state holding one object of capacity 14 (as produced by
`createObject(4)`) at handle `(0, 1)`. -/
def c3State : GCState := ⟨1, 2, [(⟨0, 1⟩, Obj.fresh 14)], []⟩

/-- C3 (counterexample): recreating the capacity-14 object at handle `(0, 1)`
with `knownPropsCount = 5` (new capacity 15) returns a DIFFERENT handle, the
original handle still resolves to the ORIGINAL allocation, and no `onMove`
event fires — refuting "fires onMove, and reallocates the original handle's
backing so that the original handle thereafter resolves to the new
allocation". -/
theorem c3_counterexample :
    (genericRecreateObject (fun _ => 0) c3State ⟨0, 1⟩ 5).2 ≠
      (⟨0, 1⟩ : ManagedMemoryPointerBase) ∧
    (genericRecreateObject (fun _ => 0) c3State ⟨0, 1⟩ 5).1.resolve ⟨0, 1⟩ =
      some (Obj.fresh 14) ∧
    (genericRecreateObject (fun _ => 0) c3State ⟨0, 1⟩ 5).1.movedEvents = [] := by
  decide

/-- C3 (amended): whenever the handle resolves to an object whose capacity
differs from `knownPropsCount + 10` and every heap binding carries a table
index below the allocator's next index, `genericRecreateObject` returns a
handle with the FRESH table index (hence distinct from the original handle);
afterwards the original handle still resolves to the original object, the
new handle resolves to the copy-rehashed new object, and no `onMove` event
has been recorded. -/
theorem c3_recreate_fresh_handle (mem : Int → Nat) (st : GCState)
    (p : ManagedMemoryPointerBase) (k : Nat) (old : Obj)
    (hres : st.resolve p = some old)
    (hcap : k + 10 ≠ old.propCount)
    (hfresh : ∀ e ∈ st.heap, e.1.tableIndex < st.nextIndex) :
    (genericRecreateObject mem st p k).2.tableIndex = st.nextIndex ∧
    (genericRecreateObject mem st p k).2 ≠ p ∧
    (genericRecreateObject mem st p k).1.resolve p = some old ∧
    (genericRecreateObject mem st p k).1.resolve (genericRecreateObject mem st p k).2 =
      some (copyRehash mem old (k + 10)) ∧
    (genericRecreateObject mem st p k).1.movedEvents = st.movedEvents := by
  have hpidx : p.tableIndex < st.nextIndex := by
    obtain ⟨e, hfind⟩ : ∃ e, (st.heap.find? fun e => e.1 == p) = some e := by
      unfold GCState.resolve at hres
      cases hf : st.heap.find? fun e => e.1 == p with
      | none => rw [hf] at hres; exact absurd hres (by simp)
      | some e => exact ⟨e, rfl⟩
    have hmem := List.mem_of_find?_eq_some hfind
    have hkey := List.find?_some hfind
    have hep : e.1 = p := by simpa using hkey
    exact hep ▸ hfresh e hmem
  have hval : genericRecreateObject mem st p k =
      ({ st with
          nextIndex := st.nextIndex + 1
          nextUid := st.nextUid + 1
          heap := st.heap ++
            [(⟨st.nextIndex, st.nextUid⟩, copyRehash mem old (k + 10))] },
        (⟨st.nextIndex, st.nextUid⟩ : ManagedMemoryPointerBase)) := by
    simp [genericRecreateObject, hres, if_neg hcap, GCState.alloc]
  rw [hval]
  refine ⟨rfl, ?_, ?_, ?_, rfl⟩
  · intro hcontra
    have h2 := congrArg ManagedMemoryPointerBase.tableIndex hcontra
    simp only at h2
    omega
  · unfold GCState.resolve at hres ⊢
    cases hf : st.heap.find? fun e => e.1 == p with
    | none => rw [hf] at hres; exact absurd hres (by simp)
    | some e =>
      rw [hf] at hres
      simp only [List.find?_append, hf, Option.or]
      exact hres
  · unfold GCState.resolve
    have hleft : (st.heap.find? fun e =>
        e.1 == (⟨st.nextIndex, st.nextUid⟩ : ManagedMemoryPointerBase)) = none := by
      apply List.find?_eq_none.2
      intro e hmem
      have hlt := hfresh e hmem
      simp only [beq_iff_eq]
      intro hcontra
      have h3 := congrArg ManagedMemoryPointerBase.tableIndex hcontra
      simp only at h3
      omega
    simp only [List.find?_append, hleft, Option.or, List.find?]
    simp

/-- C3 (witness): the amended theorem applied to the concrete capacity-14
object at handle `(0, 1)` with `knownPropsCount = 5`. -/
theorem c3_recreate_fresh_handle_witness :
    c3State.resolve ⟨0, 1⟩ = some (Obj.fresh 14) ∧
    (5 : Nat) + 10 ≠ (Obj.fresh 14).propCount ∧
    (∀ e ∈ c3State.heap, e.1.tableIndex < c3State.nextIndex) ∧
    ((genericRecreateObject (fun _ => 0) c3State ⟨0, 1⟩ 5).2.tableIndex =
        c3State.nextIndex ∧
      (genericRecreateObject (fun _ => 0) c3State ⟨0, 1⟩ 5).2 ≠ ⟨0, 1⟩ ∧
      (genericRecreateObject (fun _ => 0) c3State ⟨0, 1⟩ 5).1.resolve ⟨0, 1⟩ =
        some (Obj.fresh 14) ∧
      (genericRecreateObject (fun _ => 0) c3State ⟨0, 1⟩ 5).1.resolve
          (genericRecreateObject (fun _ => 0) c3State ⟨0, 1⟩ 5).2 =
        some (copyRehash (fun _ => 0) (Obj.fresh 14) 15) ∧
      (genericRecreateObject (fun _ => 0) c3State ⟨0, 1⟩ 5).1.movedEvents =
        c3State.movedEvents) :=
  ⟨by decide, by decide, by decide,
    c3_recreate_fresh_handle (fun _ => 0) c3State ⟨0, 1⟩ 5 (Obj.fresh 14)
      (by decide) (by decide) (by decide)⟩

/-! ## Reverse semaphore (`ReverseSemaphore.cpp`)

Fields: `numSharedUsers`, `isExclusiveRequested`, plus two mutexes
(`syncMutex`, `exclusiveMutex`) and a condition variable.  Two models are
used:

* an interleaving model for the blocking operations (C7): each operation's
  critical section (the region executed under `syncMutex`, plus the writer's
  unsynchronized flag write, which precedes its wait) is one atomic step of a
  labelled transition system; a step whose guard fails is disabled (the
  thread is blocked at its condition-variable wait / mutex acquisition);

* a sequential model of `tryLock` (C10), which executes its three guard
  checks uninterrupted and records which mutexes remain held afterwards. -/

/-- Semaphore state for the interleaving model.  `exclusiveMutexHeld` tracks
the writer-serialization mutex. -/
structure SemState where
  numSharedUsers : Nat
  isExclusiveRequested : Bool
  exclusiveMutexHeld : Bool
deriving DecidableEq, Repr

/-- The atomic steps: a shared acquisition completing (`lockShared` passing
its wait, or `tryLockShared` returning true), a shared release, a writer
entering `lock()` (acquire `exclusiveMutex`, set `isExclusiveRequested`), a
writer's wait in `lock()` completing (requires no shared users), and
`unlock()`. -/
inductive SemOp where
  | lockSharedOk
  | tryLockSharedOk
  | unlockShared
  | writerRequest
  | writerAcquire
  | writerUnlock
deriving DecidableEq, Repr

/-- Guarded effect of each step, from `ReverseSemaphore.cpp`:
`lockShared` waits for `!isExclusiveRequested` then increments the count;
`tryLockShared` fails (is disabled) while `isExclusiveRequested`;
`unlockShared` decrements; `lock()` first acquires `exclusiveMutex` and sets
`isExclusiveRequested` (step `writerRequest`), then waits for
`numSharedUsers == 0` (step `writerAcquire`); `unlock()` clears the flag and
releases `exclusiveMutex`. -/
def semStep (s : SemState) : SemOp → Option SemState
  | .lockSharedOk =>
    if s.isExclusiveRequested then none
    else some { s with numSharedUsers := s.numSharedUsers + 1 }
  | .tryLockSharedOk =>
    if s.isExclusiveRequested then none
    else some { s with numSharedUsers := s.numSharedUsers + 1 }
  | .unlockShared => some { s with numSharedUsers := s.numSharedUsers - 1 }
  | .writerRequest =>
    if s.exclusiveMutexHeld then none
    else some { s with exclusiveMutexHeld := true, isExclusiveRequested := true }
  | .writerAcquire =>
    if s.isExclusiveRequested && s.numSharedUsers == 0 then some s else none
  | .writerUnlock =>
    some { s with isExclusiveRequested := false, exclusiveMutexHeld := false }

/-- Run a sequence of steps; `none` when some step is disabled (that
interleaving does not occur). -/
def semRun (s : SemState) : List SemOp → Option SemState
  | [] => some s
  | op :: ops =>
    match semStep s op with
    | none => none
    | some s' => semRun s' ops

/-- While `isExclusiveRequested` holds, any enabled step other than
`writerUnlock` keeps it set and cannot be a shared acquisition. -/
theorem semStep_preserves (s s' : SemState) (op : SemOp)
    (hreq : s.isExclusiveRequested = true) (hop : op ≠ SemOp.writerUnlock)
    (hstep : semStep s op = some s') :
    s'.isExclusiveRequested = true ∧
    op ≠ SemOp.lockSharedOk ∧ op ≠ SemOp.tryLockSharedOk := by
  cases op with
  | lockSharedOk => rw [semStep, hreq] at hstep; exact absurd hstep (by simp)
  | tryLockSharedOk => rw [semStep, hreq] at hstep; exact absurd hstep (by simp)
  | unlockShared =>
    refine ⟨?_, by simp, by simp⟩
    have : s' = { s with numSharedUsers := s.numSharedUsers - 1 } := by
      simpa [semStep] using hstep.symm
    rw [this]; exact hreq
  | writerRequest =>
    refine ⟨?_, by simp, by simp⟩
    by_cases hm : s.exclusiveMutexHeld = true
    · rw [semStep, if_pos hm] at hstep; exact absurd hstep (by simp)
    · rw [semStep, if_neg hm] at hstep
      have : s' = { s with exclusiveMutexHeld := true, isExclusiveRequested := true } := by
        simpa using hstep.symm
      rw [this]
  | writerAcquire =>
    refine ⟨?_, by simp, by simp⟩
    by_cases hc : (s.isExclusiveRequested && s.numSharedUsers == 0) = true
    · rw [semStep, if_pos hc] at hstep
      have : s' = s := by simpa using hstep.symm
      rw [this]; exact hreq
    · rw [semStep, if_neg hc] at hstep; exact absurd hstep (by simp)
  | writerUnlock => exact absurd rfl hop

/-- C7: once a writer has entered `lock()` (so `isExclusiveRequested` is
set), no interleaving that omits the writer's `unlock()` contains a
successful shared acquisition: every valid step sequence without
`writerUnlock` is free of `lockSharedOk` and `tryLockSharedOk`. -/
theorem c7_writer_blocks_shared (ops : List SemOp) :
    ∀ s s' : SemState, s.isExclusiveRequested = true →
      semRun s ops = some s' → SemOp.writerUnlock ∉ ops →
      SemOp.lockSharedOk ∉ ops ∧ SemOp.tryLockSharedOk ∉ ops := by
  induction ops with
  | nil =>
    intro s s' _ _ _
    exact ⟨List.not_mem_nil _, List.not_mem_nil _⟩
  | cons op rest ih =>
    intro s s' hreq hrun hnou
    have hop : op ≠ SemOp.writerUnlock := by
      intro h; exact hnou (h ▸ List.mem_cons_self op rest)
    have hrest : SemOp.writerUnlock ∉ rest := fun h => hnou (List.mem_cons_of_mem _ h)
    cases hstep : semStep s op with
    | none => rw [semRun, hstep] at hrun; exact absurd hrun (by simp)
    | some s1 =>
      rw [semRun, hstep] at hrun
      obtain ⟨hreq1, hne1, hne2⟩ := semStep_preserves s s1 op hreq hop hstep
      obtain ⟨hm1, hm2⟩ := ih s1 s' hreq1 hrun hrest
      constructor
      · simp [List.mem_cons, hne1.symm]
        intro hcontra
        exact hm1 hcontra
      · simp [List.mem_cons, hne2.symm]
        intro hcontra
        exact hm2 hcontra

/-- C7 (witness): the theorem applied to the state reached after a writer's
`lock()` returned (flag set, exclusive mutex held, no shared users) and the
interleaving consisting of a single `writerAcquire` step. -/
theorem c7_writer_blocks_shared_witness :
    (⟨0, true, true⟩ : SemState).isExclusiveRequested = true ∧
    semRun ⟨0, true, true⟩ [SemOp.writerAcquire] = some ⟨0, true, true⟩ ∧
    SemOp.writerUnlock ∉ [SemOp.writerAcquire] ∧
    (SemOp.lockSharedOk ∉ [SemOp.writerAcquire] ∧
      SemOp.tryLockSharedOk ∉ [SemOp.writerAcquire]) :=
  ⟨by decide, by decide, by decide,
    c7_writer_blocks_shared [SemOp.writerAcquire] ⟨0, true, true⟩ ⟨0, true, true⟩
      (by decide) (by decide) (by decide)⟩

/-- Semaphore state for the sequential `tryLock` model, additionally tracking
`syncMutex`. -/
structure RSemState where
  numSharedUsers : Nat
  isExclusiveRequested : Bool
  syncMutexHeld : Bool
  exclusiveMutexHeld : Bool
deriving DecidableEq, Repr

/-- Method `ReverseSemaphore::tryLock` (`ReverseSemaphore.cpp` lines 64-87),
transcribed branch by branch; a `try_lock` on a free mutex succeeds.
1. `syncMutex.try_lock()` fails: return false, nothing changed.
2. `exclusiveMutex.try_lock()` fails: unlock `syncMutex`, return false.
3. `numSharedUsers > 0`: unlock `syncMutex` and return false — but
   `exclusiveMutex` is NOT unlocked and remains held.
4. otherwise set `isExclusiveRequested`, unlock `syncMutex`, return true
   (keeping `exclusiveMutex`, which `unlock()` will release). -/
def tryLock (s : RSemState) : Bool × RSemState :=
  if s.syncMutexHeld then (false, s)
  else if s.exclusiveMutexHeld then (false, s)
  else if 0 < s.numSharedUsers then (false, { s with exclusiveMutexHeld := true })
  else (true, { s with exclusiveMutexHeld := true, isExclusiveRequested := true })

/-- C10: calling `tryLock` with one shared user active (and no mutex held)
returns false but LEAVES `exclusiveMutex` held, so the state is not restored;
afterwards every further `tryLock` fails — even after the shared user
releases — and a blocking `lock()` (which begins by acquiring
`exclusiveMutex`) can never succeed.  This refutes "the semaphore's state is
left exactly as it was before the call". -/
theorem c10_trylock_leaks_exclusive_mutex :
    (tryLock ⟨1, false, false, false⟩).1 = false ∧
    (tryLock ⟨1, false, false, false⟩).2 ≠ ⟨1, false, false, false⟩ ∧
    (tryLock ⟨1, false, false, false⟩).2.exclusiveMutexHeld = true ∧
    (tryLock (tryLock ⟨1, false, false, false⟩).2).1 = false ∧
    (tryLock ⟨0, false, false, true⟩).1 = false := by
  decide

end NeuroSpec
